import Mathlib

/-!
Verification development for the lobby/chat-room system.

Shallow embedding of:
  - `chat/models.py`   : `Lobby.can_join`, the Membership / Ban relations;
  - `chat/views.py`    : `LobbyViewSet.ban`, `LobbyViewSet.leave` (REST actions);
  - `chat/consumers.py`: `LobbyConsumer.connect` / `disconnect` (presence and
    group lifecycle), `handle_chat_message`, `check_rate_limit`,
    `moderation_kick` / `moderation_ban` event receivers.

Database rows become records, query-sets become lists, and the per-request
handlers become pure functions from an explicit state to a new state plus the
messages they emit.
-/

/-- Row of the custom `User` model (`chat/models.py`): only the fields the
verified operations read. -/
structure UserR where
  id : Nat
  username : String
  isPremium : Bool
deriving DecidableEq

/-- Row of the `Lobby` model (`chat/models.py`): `status` ranges over the
string choices `"open"`, `"in_game"`, `"closed"`. -/
structure LobbyR where
  id : Nat
  name : String
  ownerId : Nat
  isPublic : Bool
  status : String
  maxParticipants : Nat
deriving DecidableEq

/-- Row of `LobbyMembership`: unique per `(user, lobby)`, `role` ranges over
`"member"`, `"moderator"`, `"owner"`. -/
structure MembershipR where
  userId : Nat
  lobbyId : Nat
  role : String
deriving DecidableEq

/-- Row of `LobbyBan`: unique per `(lobby, user)`. -/
structure BanR where
  lobbyId : Nat
  userId : Nat
  reason : String
  bannedBy : Option Nat
deriving DecidableEq

/-- Row of `LobbyEvent` (audit log, append-only). -/
structure EventR where
  lobbyId : Nat
  eventType : String
  actorId : Option Nat
  targetId : Option Nat
  description : String
deriving DecidableEq

/-- The durable store: the tables the verified operations touch. -/
structure DB where
  users : List UserR
  memberships : List MembershipR
  bans : List BanR
  events : List EventR
deriving DecidableEq

/-- `Lobby.current_participants_count` (`models.py`): number of membership
rows of this lobby. -/
def current_participants_count (db : DB) (l : LobbyR) : Nat :=
  (db.memberships.filter (fun m => m.lobbyId == l.id)).length

/-- `Lobby.is_full` (`models.py`): `current_participants_count >= max_participants`. -/
def is_full (db : DB) (l : LobbyR) : Bool :=
  decide (l.maxParticipants ≤ current_participants_count db l)

/-- `Lobby.can_join` (`models.py` lines 47-57): four checks in source order,
short-circuiting, each with its reason string. -/
def can_join (db : DB) (l : LobbyR) (userId : Nat) : Bool × String :=
  if l.status ≠ "open" then (false, "Lobby is not open")
  else if is_full db l then (false, "Lobby is full")
  else if db.bans.any (fun b => b.lobbyId == l.id && b.userId == userId) then
    (false, "You are banned from this lobby")
  else if db.memberships.any (fun m => m.lobbyId == l.id && m.userId == userId) then
    (false, "Already in lobby")
  else (true, "Can join")

/-- Ban rows of lobby `l` for user `u` exist. -/
def banExists (db : DB) (l : LobbyR) (u : Nat) : Bool :=
  db.bans.any (fun b => b.lobbyId == l.id && b.userId == u)

/-- Membership rows of lobby `l` for user `u` exist. -/
def memberExists (db : DB) (l : LobbyR) (u : Nat) : Bool :=
  db.memberships.any (fun m => m.lobbyId == l.id && m.userId == u)

set_option linter.unnecessarySeqFocus false in
/-- C1: `can_join` admits a user iff the lobby is open, not full, the user is
not banned and not already a member; the checks run in exactly that order and
the reason reported is that of the first failing check. -/
theorem can_join_spec (db : DB) (l : LobbyR) (u : Nat) :
    ((can_join db l u).1 = true ↔
      (l.status = "open" ∧ current_participants_count db l < l.maxParticipants ∧
        banExists db l u = false ∧ memberExists db l u = false))
    ∧ (l.status ≠ "open" → can_join db l u = (false, "Lobby is not open"))
    ∧ (l.status = "open" → is_full db l = true →
        can_join db l u = (false, "Lobby is full"))
    ∧ (l.status = "open" → is_full db l = false → banExists db l u = true →
        can_join db l u = (false, "You are banned from this lobby"))
    ∧ (l.status = "open" → is_full db l = false → banExists db l u = false →
        memberExists db l u = true → can_join db l u = (false, "Already in lobby"))
    ∧ (l.status = "open" → is_full db l = false → banExists db l u = false →
        memberExists db l u = false → can_join db l u = (true, "Can join")) := by
  unfold can_join banExists memberExists is_full
  by_cases hs : l.status = "open" <;>
    by_cases hf : l.maxParticipants ≤ current_participants_count db l <;>
    by_cases hb : db.bans.any (fun b => b.lobbyId == l.id && b.userId == u) <;>
    by_cases hm : db.memberships.any (fun m => m.lobbyId == l.id && m.userId == u) <;>
    simp [hs, hf, hb, hm, Nat.lt_iff_add_one_le, Nat.not_le] <;>
    omega

/-- Example store for witnesses: lobby 1 (owner 10, capacity 2, open) with the
owner and user 2 as members, and user 3 banned. -/
def exLobby : LobbyR :=
  { id := 1, name := "Test", ownerId := 10, isPublic := true
    status := "open", maxParticipants := 2 }

/-- Example database used by the witnesses. -/
def exDB : DB :=
  { users := [⟨10, "alice", true⟩, ⟨2, "bob", false⟩, ⟨3, "carol", false⟩]
    memberships := [⟨10, 1, "owner"⟩, ⟨2, 1, "member"⟩]
    bans := [⟨1, 3, "spam", some 10⟩]
    events := [] }

/-- Witness for C1: in the example store the lobby is full, so user 3 (who is
also banned) is refused with the "full" reason first. -/
theorem can_join_spec_witness :
    can_join exDB exLobby 3 = (false, "Lobby is full") :=
  (can_join_spec exDB exLobby 3).2.2.1 (by decide) (by decide)

/-- HTTP response of a REST action: 200 with a message, 400 with an error, or
404 with an error. -/
inductive Resp where
  | ok (msg : String)
  | badRequest (msg : String)
  | notFound404 (msg : String)
deriving DecidableEq

/-- Effects of `LobbyViewSet.ban`: the response, the store afterwards, and the
channel-layer events the view sends into the lobby group. -/
structure BanOutcome where
  resp : Resp
  db : DB
  groupSends : List String
deriving DecidableEq

/-- `LobbyViewSet.ban` (`views.py` lines 279-337): look the target up, refuse
to ban the owner, delete any membership of the target, then `get_or_create`
the ban row; only a freshly created ban logs an event and reports success.
The view performs no channel-layer `group_send`, so `groupSends` is empty on
every path. -/
def restBan (db : DB) (l : LobbyR) (actorId : Nat) (targetId : Nat) (reason : String) :
    BanOutcome :=
  match db.users.find? (fun x => x.id == targetId) with
  | none => ⟨Resp.notFound404 "User not found", db, []⟩
  | some user =>
    if l.ownerId == user.id then ⟨Resp.badRequest "Cannot ban lobby owner", db, []⟩
    else
      let db1 : DB :=
        { db with memberships :=
            db.memberships.filter (fun m => ! (m.userId == user.id && m.lobbyId == l.id)) }
      if db1.bans.any (fun b => b.lobbyId == l.id && b.userId == user.id) then
        ⟨Resp.badRequest "User already banned", db1, []⟩
      else
        ⟨Resp.ok ("User " ++ user.username ++ " banned successfully"),
          { db1 with
            bans := db1.bans ++ [⟨l.id, user.id, reason, some actorId⟩]
            events := db1.events ++ [⟨l.id, "ban", some actorId, some user.id,
              user.username ++ " banned from lobby. Reason: " ++ reason⟩] }, []⟩

/-- `LobbyViewSet.leave` (`views.py` lines 156-190): fetch the caller's
membership (400 if absent), refuse if its role is owner, otherwise delete it
and log an event. -/
def restLeave (db : DB) (l : LobbyR) (user : UserR) : Resp × DB :=
  match db.memberships.find? (fun x => x.userId == user.id && x.lobbyId == l.id) with
  | none => (Resp.badRequest "Not in lobby", db)
  | some m =>
    if m.role == "owner" then
      (Resp.badRequest "Owner cannot leave lobby. Transfer ownership first.", db)
    else
      (Resp.ok "Left lobby successfully",
        { db with
          memberships :=
            db.memberships.filter (fun x => ! (x.userId == user.id && x.lobbyId == l.id))
          events := db.events ++ [⟨l.id, "status_change", some user.id, none,
            user.username ++ " left the lobby"⟩] })

/-- Deleting all membership rows of `(u, lid)` leaves no such row behind. -/
theorem any_filter_out (ms : List MembershipR) (lid u : Nat) :
    ((ms.filter (fun x => ! (x.userId == u && x.lobbyId == lid))).any
      (fun m => m.lobbyId == lid && m.userId == u)) = false := by
  rw [← Bool.not_eq_true]
  simp only [List.any_eq_true, List.mem_filter, not_exists]
  rintro x ⟨⟨-, hkeep⟩, hmatch⟩
  simp only [Bool.not_eq_true', Bool.and_eq_false_iff, beq_eq_false_iff_ne] at hkeep
  simp only [Bool.and_eq_true, beq_iff_eq] at hmatch
  rcases hkeep with h | h <;> exact h (by simp [hmatch.1, hmatch.2])

/-- C9: a REST ban (target exists, target is not the owner) always deletes the
target's membership; if the target was already banned it reports an error and
leaves the ban table unchanged, otherwise it succeeds and creates exactly one
ban row for the pair. -/
theorem restBan_spec (db : DB) (l : LobbyR) (a t : Nat) (r : String) (usr : UserR)
    (husr : db.users.find? (fun x => x.id == t) = some usr)
    (howner : l.ownerId ≠ t) :
    memberExists (restBan db l a t r).db l t = false
    ∧ (banExists db l t = true →
        (restBan db l a t r).resp = Resp.badRequest "User already banned" ∧
        (restBan db l a t r).db.bans = db.bans)
    ∧ (banExists db l t = false →
        (restBan db l a t r).resp = Resp.ok ("User " ++ usr.username ++ " banned successfully") ∧
        banExists (restBan db l a t r).db l t = true ∧
        ((restBan db l a t r).db.bans.filter
          (fun b => b.lobbyId == l.id && b.userId == t)).length = 1) := by
  have hid : usr.id = t := by
    have := List.find?_some husr
    simpa [beq_iff_eq] using this
  subst hid
  have hown : (l.ownerId == usr.id) = false := by
    rw [beq_eq_false_iff_ne]
    exact howner
  unfold restBan banExists memberExists
  rw [husr]
  simp only [hown, Bool.false_eq_true, if_false]
  by_cases hb : (db.bans.any (fun b => b.lobbyId == l.id && b.userId == usr.id)) = true
  · simp only [hb, if_true]
    refine ⟨?_, fun _ => ⟨by trivial, by trivial⟩, fun hfalse => ?_⟩
    · exact any_filter_out db.memberships l.id usr.id
    · simp at hfalse
  · have hb' : (db.bans.any (fun b => b.lobbyId == l.id && b.userId == usr.id)) = false := by
      cases h : db.bans.any (fun b => b.lobbyId == l.id && b.userId == usr.id)
      · rfl
      · exact absurd h hb
    simp only [hb', Bool.false_eq_true, if_false]
    have hnil : db.bans.filter (fun b => b.lobbyId == l.id && b.userId == usr.id) = [] := by
      rw [List.filter_eq_nil_iff]
      intro b hbmem hbp
      have : db.bans.any (fun b => b.lobbyId == l.id && b.userId == usr.id) = true :=
        List.any_eq_true.mpr ⟨b, hbmem, hbp⟩
      rw [hb'] at this
      cases this
    refine ⟨?_, fun htrue => ?_, fun _ => ⟨by trivial, ?_, ?_⟩⟩
    · exact any_filter_out db.memberships l.id usr.id
    · exact htrue.elim
    · simp
    · simp [List.filter_append, hnil]

/-- Witness for C9: banning user 2 in the example store succeeds, the ban row
exists exactly once, and no membership of user 2 remains. -/
theorem restBan_spec_witness :
    (restBan exDB exLobby 10 2 "x").resp = Resp.ok "User bob banned successfully"
    ∧ banExists (restBan exDB exLobby 10 2 "x").db exLobby 2 = true
    ∧ ((restBan exDB exLobby 10 2 "x").db.bans.filter
        (fun b => b.lobbyId == exLobby.id && b.userId == 2)).length = 1 :=
  (restBan_spec exDB exLobby 10 2 "x" ⟨2, "bob", false⟩ (by decide) (by decide)).2.2 (by decide)

/-- C3 (code divergence): no execution of the REST ban view ever sends an
event into the lobby's channel group — `views.py` contains no `group_send`
call — even though a concrete ban succeeds and mutates the store. -/
theorem restBan_never_broadcasts :
    (∀ db l a t r, (restBan db l a t r).groupSends = [])
    ∧ (restBan exDB exLobby 10 2 "spam").resp = Resp.ok "User bob banned successfully" := by
  constructor
  · intro db l a t r
    unfold restBan
    cases hf : db.users.find? (fun x => x.id == t) with
    | none => rfl
    | some usr =>
      dsimp only
      by_cases h1 : (l.ownerId == usr.id) = true
      · simp only [h1, if_true]
      · simp only [h1, Bool.false_eq_true, if_false]
        by_cases h2 : (db.bans.any fun b => b.lobbyId == l.id && b.userId == usr.id) = true
        · simp only [h2, if_true]
        · simp only [h2, Bool.false_eq_true, if_false]
  · decide

/-- C10: the REST leave action refuses an owner and changes nothing, while a
non-owner member's leave succeeds and deletes exactly that member's rows. -/
theorem restLeave_spec (db : DB) (l : LobbyR) (u : UserR) (m : MembershipR)
    (hm : db.memberships.find? (fun x => x.userId == u.id && x.lobbyId == l.id) = some m) :
    (m.role = "owner" →
      restLeave db l u = (Resp.badRequest "Owner cannot leave lobby. Transfer ownership first.", db))
    ∧ (m.role ≠ "owner" →
      (restLeave db l u).1 = Resp.ok "Left lobby successfully" ∧
      (restLeave db l u).2.memberships =
        db.memberships.filter (fun x => ! (x.userId == u.id && x.lobbyId == l.id)) ∧
      memberExists (restLeave db l u).2 l u.id = false) := by
  unfold restLeave memberExists
  rw [hm]
  constructor
  · intro hrole
    simp [hrole]
  · intro hrole
    have hro : (m.role == "owner") = false := by
      rw [beq_eq_false_iff_ne]
      exact hrole
    simp only [hro, Bool.false_eq_true, if_false]
    exact ⟨by trivial, by trivial, any_filter_out db.memberships l.id u.id⟩

/-- Witness for C10: the owner of the example lobby cannot leave it and the
store is unchanged. -/
theorem restLeave_spec_witness :
    restLeave exDB exLobby ⟨10, "alice", true⟩ =
      (Resp.badRequest "Owner cannot leave lobby. Transfer ownership first.", exDB) :=
  (restLeave_spec exDB exLobby ⟨10, "alice", true⟩ ⟨10, 1, "owner"⟩ (by decide)).1 rfl

/-- `LobbyConsumer.check_rate_limit` (`consumers.py` lines 323-343) for one
`(user, lobby)` key, with time as integer instants: read the stored
timestamps, keep those strictly newer than `now - 2` seconds, reject if 3 or
more remain (the store is not written), otherwise append `now` to the kept
list and store it. Returns the decision and the stored list afterwards. -/
def check_rate_limit (stored : List Int) (now : Int) : Bool × List Int :=
  let cutoff := now - 2
  let messages := stored.filter (fun t => cutoff < t)
  if 3 ≤ messages.length then (false, stored)
  else (true, messages ++ [now])

/-- Sequence of rate-limit checks for one key, starting from an empty store:
returns the decisions in order. -/
def rateDecisions (times : List Int) : List Bool × List Int :=
  times.foldl
    (fun acc t =>
      let r := check_rate_limit acc.2 t
      (acc.1 ++ [r.1], r.2))
    ([], [])

/-- Shared fact: a rejected rate-limit call does not write the store. -/
theorem check_rate_limit_reject_store (stored : List Int) (now : Int) :
    (check_rate_limit stored now).1 = false →
    (check_rate_limit stored now).2 = stored := by
  unfold check_rate_limit
  by_cases h : 3 ≤ (stored.filter (fun t => now - 2 < t)).length
  · intro _
    simp [h]
  · intro hf
    simp [h] at hf

/-- C4: a call is accepted iff fewer than 3 stored timestamps lie inside the
rolling 2-second window; acceptance appends `now` to the retained window and
rejection leaves the store untouched. Consequently three calls in one second
all pass, a fourth inside the same window is rejected, and a call after the
window has passed is accepted again. -/
theorem check_rate_limit_spec :
    (∀ (stored : List Int) (now : Int),
      ((check_rate_limit stored now).1 = true ↔
        (stored.filter (fun t => now - 2 < t)).length < 3)
      ∧ ((check_rate_limit stored now).1 = false →
          (check_rate_limit stored now).2 = stored)
      ∧ ((check_rate_limit stored now).1 = true →
          (check_rate_limit stored now).2 =
            stored.filter (fun t => now - 2 < t) ++ [now]))
    ∧ (rateDecisions [0, 0, 1, 1, 4]).1 = [true, true, true, false, true] := by
  constructor
  · intro stored now
    unfold check_rate_limit
    by_cases h : 3 ≤ (stored.filter (fun t => now - 2 < t)).length
    · simp only [h, if_true]
      refine ⟨by simp; omega, fun _ => by trivial, fun htrue => ?_⟩
      simp at htrue
    · simp only [h, if_false]
      refine ⟨by simp; omega, fun hfalse => ?_, fun _ => by trivial⟩
      simp at hfalse
  · decide

/-- Witness for C4: with two stored timestamps inside the window a third call
is accepted and the window is refreshed. -/
theorem check_rate_limit_spec_witness :
    (check_rate_limit [0, 1] 1).2 = ([0, 1] : List Int).filter (fun t => 1 - 2 < t) ++ [1] :=
  (check_rate_limit_spec.1 [0, 1] 1).2.2 (by decide)

/-- Python `str.strip`: drop Unicode whitespace from both ends of the
string. -/
def strip (s : String) : String :=
  ⟨((s.data.dropWhile Char.isWhitespace).reverse.dropWhile Char.isWhitespace).reverse⟩

/-- Client-visible effects of one `handle_chat_message` call: the error events
sent to the sender, whether the connection was force-closed (with code 4003),
the content broadcast to the group (if any), and the rate-limit store for the
`(user, lobby)` key afterwards. -/
structure ChatOutcome where
  errors : List String
  closed : Bool
  broadcast : Option String
  rateStore : List Int
deriving DecidableEq

/-- `LobbyConsumer.handle_chat_message` (`consumers.py` lines 119-165): strip,
reject empty, reject over-long, consult the rate limiter, re-check membership
(force-closing on failure), persist (`saveOk` is the outcome of the external
store call), and only then broadcast. Each failing step short-circuits with an
error event. -/
def handle_chat_message (raw : String) (stored : List Int) (now : Int)
    (isMember : Bool) (saveOk : Bool) : ChatOutcome :=
  let content := strip raw
  if content = "" then
    ⟨["Message cannot be empty"], false, none, stored⟩
  else if 2000 < content.length then
    ⟨["Message too long (max 2000 characters)"], false, none, stored⟩
  else
    let rl := check_rate_limit stored now
    if rl.1 = false then
      ⟨["Rate limit exceeded. Please slow down."], false, none, rl.2⟩
    else if isMember = false then
      ⟨["You are not a member of this lobby"], true, none, rl.2⟩
    else if saveOk = false then
      ⟨["Failed to save message"], false, none, rl.2⟩
    else
      ⟨[], false, some content, rl.2⟩

/-- C5: the chat-message checks run in the stated order, each failure
producing exactly its error event; only the membership re-check closes the
connection, a persistence failure yields "Failed to save message" without a
broadcast, and the message is broadcast iff every check passes. -/
theorem handle_chat_message_spec (raw : String) (stored : List Int) (now : Int)
    (isMember : Bool) (saveOk : Bool) :
    (strip raw = "" →
      handle_chat_message raw stored now isMember saveOk =
        ⟨["Message cannot be empty"], false, none, stored⟩)
    ∧ (strip raw ≠ "" → 2000 < (strip raw).length →
      handle_chat_message raw stored now isMember saveOk =
        ⟨["Message too long (max 2000 characters)"], false, none, stored⟩)
    ∧ (strip raw ≠ "" → (strip raw).length ≤ 2000 →
        (check_rate_limit stored now).1 = false →
      handle_chat_message raw stored now isMember saveOk =
        ⟨["Rate limit exceeded. Please slow down."], false, none, stored⟩)
    ∧ (strip raw ≠ "" → (strip raw).length ≤ 2000 →
        (check_rate_limit stored now).1 = true → isMember = false →
      handle_chat_message raw stored now isMember saveOk =
        ⟨["You are not a member of this lobby"], true, none, (check_rate_limit stored now).2⟩)
    ∧ (strip raw ≠ "" → (strip raw).length ≤ 2000 →
        (check_rate_limit stored now).1 = true → isMember = true → saveOk = false →
      handle_chat_message raw stored now isMember saveOk =
        ⟨["Failed to save message"], false, none, (check_rate_limit stored now).2⟩)
    ∧ (strip raw ≠ "" → (strip raw).length ≤ 2000 →
        (check_rate_limit stored now).1 = true → isMember = true → saveOk = true →
      handle_chat_message raw stored now isMember saveOk =
        ⟨[], false, some (strip raw), (check_rate_limit stored now).2⟩)
    ∧ ((handle_chat_message raw stored now isMember saveOk).closed = true ↔
        (strip raw ≠ "" ∧ (strip raw).length ≤ 2000 ∧
          (check_rate_limit stored now).1 = true ∧ isMember = false))
    ∧ ((handle_chat_message raw stored now isMember saveOk).broadcast ≠ none ↔
        (strip raw ≠ "" ∧ (strip raw).length ≤ 2000 ∧
          (check_rate_limit stored now).1 = true ∧ isMember = true ∧ saveOk = true)) := by
  unfold handle_chat_message
  have hrej : (check_rate_limit stored now).1 = false →
      (check_rate_limit stored now).2 = stored :=
    check_rate_limit_reject_store stored now
  by_cases he : strip raw = ""
  · simp [he]
  · by_cases hl : 2000 < (strip raw).length
    · simp [he, hl, Nat.not_le_of_lt hl]
    · have hl2 : (strip raw).length ≤ 2000 := Nat.le_of_not_lt hl
      by_cases hr : (check_rate_limit stored now).1 = true
      · cases him : isMember
        · simp [he, hl, hl2, hr, him]
        · cases hsv : saveOk <;> simp [he, hl, hl2, hr, him, hsv]
      · have hr2 : (check_rate_limit stored now).1 = false := by
          cases h : (check_rate_limit stored now).1
          · rfl
          · exact absurd h hr
        simp [he, hl, hl2, hr2, hrej hr2]

/-- Witness for C5: a valid message from a member with a working store is
broadcast stripped of surrounding whitespace. -/
theorem handle_chat_message_spec_witness :
    handle_chat_message "  hi  " [] 0 true true =
      ⟨[], false, some (strip "  hi  "), (check_rate_limit [] 0).2⟩ :=
  (handle_chat_message_spec "  hi  " [] 0 true true).2.2.2.2.2.1
    (by decide) (by decide) (by decide) rfl rfl

/-- Outbound frame written to one client socket by a moderation event
receiver. -/
inductive ModFrame where
  | kickSelf (reason : String)
  | kickInfo (targetId : Nat) (targetUsername : String) (reason : String)
  | banSelf (reason : String)
  | banInfo (targetId : Nat) (targetUsername : String) (reason : String)
deriving DecidableEq

/-- `LobbyConsumer.moderation_kick` (`consumers.py` lines 233-248), run by one
Connection Session whose user id is `selfUid` when a `moderation_kick` group
event arrives: the target gets the self variant and the connection closes with
code 4003; everyone else gets the informational variant and stays open. -/
def moderation_kick (selfUid : Nat) (targetId : Nat) (targetUsername : String)
    (reason : String) : List ModFrame × Option Nat :=
  if targetId == selfUid then ([ModFrame.kickSelf reason], some 4003)
  else ([ModFrame.kickInfo targetId targetUsername reason], none)

/-- `LobbyConsumer.moderation_ban` (`consumers.py` lines 250-265): same shape
as the kick receiver, for `moderation_ban` events. -/
def moderation_ban (selfUid : Nat) (targetId : Nat) (targetUsername : String)
    (reason : String) : List ModFrame × Option Nat :=
  if targetId == selfUid then ([ModFrame.banSelf reason], some 4003)
  else ([ModFrame.banInfo targetId targetUsername reason], none)

/-- C2: delivering a `moderation_ban` or `moderation_kick` group event to the
sessions of a lobby closes (code 4003) exactly the sessions of the target
user, after sending them the event, and sends every other session the
informational variant without closing it. -/
theorem moderation_deliver_spec (uid target : Nat) (tname reason : String) :
    (uid = target →
      moderation_ban uid target tname reason = ([ModFrame.banSelf reason], some 4003)
      ∧ moderation_kick uid target tname reason = ([ModFrame.kickSelf reason], some 4003))
    ∧ (uid ≠ target →
      moderation_ban uid target tname reason =
        ([ModFrame.banInfo target tname reason], none)
      ∧ moderation_kick uid target tname reason =
        ([ModFrame.kickInfo target tname reason], none))
    ∧ ((moderation_ban uid target tname reason).2 ≠ none ↔ uid = target)
    ∧ ((moderation_kick uid target tname reason).2 ≠ none ↔ uid = target) := by
  unfold moderation_ban moderation_kick
  by_cases h : target = uid
  · simp [h]
  · have h2 : (target == uid) = false := by
      rw [beq_eq_false_iff_ne]
      exact h
    simp [h2]
    intro h3
    exact absurd h3.symm h

/-- Witness for C2: with target user 7, the session of user 7 is closed with
code 4003 and the session of user 8 is not closed. -/
theorem moderation_deliver_spec_witness :
    (moderation_ban 7 7 "bob" "spam" = ([ModFrame.banSelf "spam"], some 4003)
      ∧ moderation_kick 7 7 "bob" "spam" = ([ModFrame.kickSelf "spam"], some 4003))
    ∧ (moderation_ban 8 7 "bob" "spam" = ([ModFrame.banInfo 7 "bob" "spam"], none)
      ∧ moderation_kick 8 7 "bob" "spam" = ([ModFrame.kickInfo 7 "bob" "spam"], none)) :=
  ⟨(moderation_deliver_spec 7 7 "bob" "spam").1 rfl,
   (moderation_deliver_spec 8 7 "bob" "spam").2.1 (by decide)⟩

/-- Event broadcast into a lobby's channel group (`group_send`). -/
inductive GroupEv where
  | presenceJoin (uid : Nat)
  | presenceLeave (uid : Nat)
deriving DecidableEq

/-- One `LobbyConsumer` instance for one lobby, as connect/disconnect leave
it. `userId` is `none` for an anonymous user (Django's `AnonymousUser.id` is
`None`; `is_authenticated` is exactly `userId.isSome`). `groupNameSet` mirrors
`self.lobby_group_name` being assigned (the first thing `connect` does).
`joined` records that the success path of `connect` ran (group add, accept,
presence add, `presence_join` broadcast, snapshot). `torn` records that
`disconnect` has handled this consumer. `snapshot` is the `presence_list`
sent to this client on join, `closeCode` the code passed to `close`. -/
structure Session where
  sid : Nat
  userId : Option Nat
  groupNameSet : Bool
  joined : Bool
  torn : Bool
  closeCode : Option Nat
  snapshot : Option (List Nat)
deriving DecidableEq

/-- State of one lobby's live side: the consumer instances so far, the
presence cache entry `lobby_presence:{id}` (a set of user ids, kept as a
duplicate-free list), the channel-group membership (consumer ids), and the
log of `group_send` calls in order. -/
structure Sys where
  sessions : List Session
  presence : List Nat
  group : List Nat
  log : List GroupEv
deriving DecidableEq

/-- `LobbyConsumer.add_user_presence` (`consumers.py` lines 347-352):
set-insert of the user id. -/
def add_user_presence (p : List Nat) (u : Nat) : List Nat :=
  if u ∈ p then p else p ++ [u]

/-- `LobbyConsumer.remove_user_presence` (`consumers.py` lines 354-362):
`set.discard` of the user id; discarding `None` (anonymous) changes nothing. -/
def remove_user_presence (p : List Nat) (u : Option Nat) : List Nat :=
  match u with
  | none => p
  | some x => p.filter (fun y => ! (y == x))

/-- `LobbyConsumer.connect` (`consumers.py` lines 22-74): assign the group
name, close 4001 if anonymous, close 4004 if the lobby is missing, close 4003
if `can_join` denies; otherwise join the channel group, accept, add presence,
broadcast `presence_join`, and send the occupant snapshot (read after this
connection registered itself). `lobbyFound` and `canJoin` are the outcomes of
the two database checks. -/
def connectStep (st : Sys) (sid : Nat) (uid : Option Nat)
    (lobbyFound : Bool) (canJoin : Bool) : Sys :=
  match uid with
  | none =>
    { st with sessions := st.sessions ++ [⟨sid, none, true, false, false, some 4001, none⟩] }
  | some u =>
    if lobbyFound = false then
      { st with sessions := st.sessions ++ [⟨sid, some u, true, false, false, some 4004, none⟩] }
    else if canJoin = false then
      { st with sessions := st.sessions ++ [⟨sid, some u, true, false, false, some 4003, none⟩] }
    else
      { sessions := st.sessions ++
          [⟨sid, some u, true, true, false, none, some (add_user_presence st.presence u)⟩]
        presence := add_user_presence st.presence u
        group := st.group ++ [sid]
        log := st.log ++ [GroupEv.presenceJoin u] }

/-- Bookkeeping helper: mark consumer `sid` as having had its teardown run. -/
def markTorn (sid : Nat) (x : Session) : Session :=
  if x.sid == sid then { x with torn := true } else x

/-- `LobbyConsumer.disconnect` (`consumers.py` lines 76-97), triggered by the
framework when consumer `sid` goes away: if the group name was assigned
(which `connect` does before any check), remove the user from presence,
broadcast `presence_leave` when the user is authenticated, and leave the
channel group; `markTorn` records on the consumer that its teardown ran. -/
def disconnectStep (st : Sys) (sid : Nat) : Sys :=
  match st.sessions.find? (fun s => s.sid == sid) with
  | none => st
  | some s =>
    if s.groupNameSet then
      { sessions := st.sessions.map (markTorn sid)
        presence := remove_user_presence st.presence s.userId
        group := st.group.filter (fun g => ! (g == sid))
        log := st.log ++
          (match s.userId with
           | some u => [GroupEv.presenceLeave u]
           | none => []) }
    else
      { st with sessions := st.sessions.map (markTorn sid) }

/-- A connect arriving at the server or a teardown of one consumer. -/
inductive Ev where
  | conn (sid : Nat) (uid : Option Nat) (lobbyFound : Bool) (canJoin : Bool)
  | disc (sid : Nat)
deriving DecidableEq

/-- Interpretation of one event. -/
def step (st : Sys) (e : Ev) : Sys :=
  match e with
  | Ev.conn sid uid lobbyFound canJoin => connectStep st sid uid lobbyFound canJoin
  | Ev.disc sid => disconnectStep st sid

/-- Run a trace of events from the empty lobby state. -/
def runTrace (es : List Ev) : Sys :=
  es.foldl step ⟨[], [], [], []⟩

/-- A session that successfully joined and has not been torn down: its socket
is accepted and still open. -/
def liveJoined (s : Session) : Bool :=
  s.joined && ! s.torn

/-- Counterexample for C6 as stated: user 7 opens two connections to the
lobby (both joins succeed), then the first one disconnects. The second
connection is still a live, joined session of user 7, yet `7` is no longer
in the presence set, because `remove_user_presence` discards the user id
unconditionally. -/
theorem presence_invariant_cex :
    ((runTrace [Ev.conn 1 (some 7) true true, Ev.conn 2 (some 7) true true,
        Ev.disc 1]).sessions.any (fun s => (s.userId == some 7) && liveJoined s)) = true
    ∧ (7 ∈ (runTrace [Ev.conn 1 (some 7) true true, Ev.conn 2 (some 7) true true,
        Ev.disc 1]).presence → False) := by
  constructor
  · decide
  · decide

/-- Counterexample for C7 as stated: a session of authenticated user 7 is
denied at `can_join` (it closes with 4003 and never reaches Active), yet its
teardown still broadcasts `presence_leave` for user 7, because `disconnect`
only checks `is_authenticated`, not whether the join completed. -/
theorem teardown_cex :
    (runTrace [Ev.conn 1 (some 7) true false, Ev.disc 1]).log =
      [GroupEv.presenceLeave 7]
    ∧ ((runTrace [Ev.conn 1 (some 7) true false, Ev.disc 1]).sessions.all
        (fun s => ! s.joined)) = true := by
  constructor
  · decide
  · decide

/-- C7 amended: teardown of a consumer whose group name was assigned (that is,
every consumer `connect` ever touched) always removes its user from the
presence store and leaves the channel group, and broadcasts `presence_leave`
iff its user was authenticated — whether or not the session ever reached
Active; each effect is performed exactly once by the single teardown. -/
theorem disconnect_spec (st : Sys) (sid : Nat) (s : Session)
    (hfind : st.sessions.find? (fun x => x.sid == sid) = some s)
    (hgn : s.groupNameSet = true) :
    (disconnectStep st sid).presence = remove_user_presence st.presence s.userId
    ∧ (disconnectStep st sid).group = st.group.filter (fun g => ! (g == sid))
    ∧ (∀ u, s.userId = some u →
        (disconnectStep st sid).log = st.log ++ [GroupEv.presenceLeave u])
    ∧ (s.userId = none → (disconnectStep st sid).log = st.log)
    ∧ (disconnectStep st sid).sessions = st.sessions.map (markTorn sid) := by
  unfold disconnectStep
  rw [hfind]
  simp only [hgn, if_true]
  refine ⟨by trivial, by trivial, fun u hu => ?_, fun hn => ?_, by trivial⟩
  · rw [hu]
  · rw [hn]
    simp

/-- Witness for C7's amended theorem: tearing down the denied session of
user 7 removes nothing new from presence, filters the group, and broadcasts
`presence_leave 7`. -/
theorem disconnect_spec_witness :
    (disconnectStep (runTrace [Ev.conn 1 (some 7) true false]) 1).log =
      (runTrace [Ev.conn 1 (some 7) true false]).log ++ [GroupEv.presenceLeave 7] :=
  ((disconnect_spec (runTrace [Ev.conn 1 (some 7) true false]) 1
    ⟨1, some 7, true, false, false, some 4003, none⟩ (by decide) rfl).2.2.1) 7 rfl

/-- C8: the success path of `connect` appends the new consumer to the channel
group, adds its user to presence, broadcasts `presence_join`, and hands the
client a snapshot read after that registration — so the snapshot equals the
new presence set and always contains the joining user's own id. -/
theorem connect_snapshot_spec (st : Sys) (sid u : Nat) :
    (connectStep st sid (some u) true true).sessions =
      st.sessions ++
        [⟨sid, some u, true, true, false, none, some (add_user_presence st.presence u)⟩]
    ∧ (connectStep st sid (some u) true true).presence = add_user_presence st.presence u
    ∧ (connectStep st sid (some u) true true).group = st.group ++ [sid]
    ∧ (connectStep st sid (some u) true true).log = st.log ++ [GroupEv.presenceJoin u]
    ∧ u ∈ add_user_presence st.presence u := by
  refine ⟨rfl, rfl, rfl, rfl, ?_⟩
  unfold add_user_presence
  by_cases h : u ∈ st.presence
  · simp [h]
  · simp [h]

/-- Membership in the presence set after a set-insert. -/
theorem mem_add_user_presence (p : List Nat) (u v : Nat) :
    v ∈ add_user_presence p u ↔ (v ∈ p ∨ v = u) := by
  unfold add_user_presence
  by_cases h : u ∈ p
  · simp only [h, if_true]
    constructor
    · exact Or.inl
    · rintro (hv | rfl)
      · exact hv
      · exact h
  · simp [h]

/-- Membership in the presence set after a discard of an authenticated id. -/
theorem mem_remove_user_presence (p : List Nat) (x v : Nat) :
    v ∈ remove_user_presence p (some x) ↔ (v ∈ p ∧ v ≠ x) := by
  unfold remove_user_presence
  simp [List.mem_filter]

/-- Marking a consumer torn does not change its id. -/
theorem markTorn_sid (sid : Nat) (x : Session) : (markTorn sid x).sid = x.sid := by
  unfold markTorn
  split <;> rfl

/-- Marking a consumer torn does not change its user. -/
theorem markTorn_userId (sid : Nat) (x : Session) :
    (markTorn sid x).userId = x.userId := by
  unfold markTorn
  split <;> rfl

/-- Marking a consumer torn does not change its group-name flag. -/
theorem markTorn_gns (sid : Nat) (x : Session) :
    (markTorn sid x).groupNameSet = x.groupNameSet := by
  unfold markTorn
  split <;> rfl

/-- A consumer with a different id is untouched by `markTorn`. -/
theorem markTorn_of_ne (sid : Nat) (x : Session) (h : x.sid ≠ sid) :
    markTorn sid x = x := by
  unfold markTorn
  have hb : (x.sid == sid) = false := by
    rw [beq_eq_false_iff_ne]
    exact h
  simp [hb]

/-- The targeted consumer gets its torn flag set. -/
theorem markTorn_of_eq (sid : Nat) (x : Session) (h : x.sid = sid) :
    markTorn sid x = { x with torn := true } := by
  unfold markTorn
  simp [h]

/-- Consumer ids determine sessions, each authenticated user has at most one
not-yet-torn-down session, and every recorded consumer has its group name
assigned (connect assigns it first). -/
def sessionsOk (l : List Session) : Prop :=
  (∀ s1 ∈ l, ∀ s2 ∈ l, s1.sid = s2.sid → s1 = s2)
  ∧ (∀ s1 ∈ l, ∀ s2 ∈ l, ∀ u : Nat,
      s1.userId = some u → s2.userId = some u →
      s1.torn = false → s2.torn = false → s1 = s2)
  ∧ (∀ s ∈ l, s.groupNameSet = true)

/-- The presence invariant of C6: a user id is in the presence set iff that
user has a live, successfully joined session. -/
def presenceOk (st : Sys) : Prop :=
  ∀ u : Nat, u ∈ st.presence ↔
    ∃ s ∈ st.sessions, s.userId = some u ∧ liveJoined s = true

/-- Admissible next event: a connect brings a fresh consumer id and a user
with no other not-yet-torn-down consumer; a teardown targets an existing
not-yet-torn-down consumer (the framework runs `disconnect` once per
consumer). -/
def wfEv (st : Sys) (e : Ev) : Bool :=
  match e with
  | Ev.conn sid uid _ _ =>
      st.sessions.all (fun s => ! (s.sid == sid)) &&
      (match uid with
       | none => true
       | some u => st.sessions.all (fun s => ! (s.userId == some u) || s.torn))
  | Ev.disc sid =>
      st.sessions.any (fun s => s.sid == sid && ! s.torn)

/-- Every event of the trace is admissible in the state it hits. -/
def wfFrom (st : Sys) : List Ev → Bool
  | [] => true
  | e :: es => wfEv st e && wfFrom (step st e) es

/-- Appending a fresh consumer preserves `sessionsOk`. -/
theorem sessionsOk_append (l : List Session) (s0 : Session) (hS : sessionsOk l)
    (hfresh : ∀ x ∈ l, x.sid ≠ s0.sid)
    (hgns : s0.groupNameSet = true)
    (hu0 : ∀ x ∈ l, ∀ u : Nat, s0.userId = some u → x.userId = some u → x.torn = true) :
    sessionsOk (l ++ [s0]) := by
  obtain ⟨hSid, hUid, hGns⟩ := hS
  refine ⟨?_, ?_, ?_⟩
  · intro s1 hs1 s2 hs2 hsid
    rcases List.mem_append.mp hs1 with h1 | h1 <;>
      rcases List.mem_append.mp hs2 with h2 | h2
    · exact hSid s1 h1 s2 h2 hsid
    · exfalso
      have h2' : s2 = s0 := by simpa using h2
      exact hfresh s1 h1 (by rw [hsid, h2'])
    · exfalso
      have h1' : s1 = s0 := by simpa using h1
      exact hfresh s2 h2 (by rw [← hsid, h1'])
    · have h1' : s1 = s0 := by simpa using h1
      have h2' : s2 = s0 := by simpa using h2
      rw [h1', h2']
  · intro s1 hs1 s2 hs2 u hu1 hu2 ht1 ht2
    rcases List.mem_append.mp hs1 with h1 | h1 <;>
      rcases List.mem_append.mp hs2 with h2 | h2
    · exact hUid s1 h1 s2 h2 u hu1 hu2 ht1 ht2
    · exfalso
      have h2' : s2 = s0 := by simpa using h2
      have := hu0 s1 h1 u (by rw [← h2']; exact hu2) hu1
      rw [this] at ht1
      cases ht1
    · exfalso
      have h1' : s1 = s0 := by simpa using h1
      have := hu0 s2 h2 u (by rw [← h1']; exact hu1) hu2
      rw [this] at ht2
      cases ht2
    · have h1' : s1 = s0 := by simpa using h1
      have h2' : s2 = s0 := by simpa using h2
      rw [h1', h2']
  · intro s hs
    rcases List.mem_append.mp hs with h | h
    · exact hGns s h
    · have h' : s = s0 := by simpa using h
      rw [h']
      exact hgns

/-- Appending a consumer that never joined leaves the presence iff intact. -/
theorem presence_exists_append_dead (l : List Session) (s0 : Session)
    (hj : s0.joined = false) (u : Nat) :
    (∃ s ∈ l ++ [s0], s.userId = some u ∧ liveJoined s = true) ↔
      (∃ s ∈ l, s.userId = some u ∧ liveJoined s = true) := by
  constructor
  · rintro ⟨t, ht, htu, htl⟩
    rcases List.mem_append.mp ht with h | h
    · exact ⟨t, h, htu, htl⟩
    · exfalso
      have h' : t = s0 := by simpa using h
      rw [h'] at htl
      simp [liveJoined, hj] at htl
  · rintro ⟨x, hx, hxu, hxl⟩
    exact ⟨x, List.mem_append.mpr (Or.inl hx), hxu, hxl⟩

/-- Witnesses for the presence iff survive marking a consumer torn exactly
when the marked consumer is not one of them. -/
theorem presence_exists_map_markTorn (l : List Session) (sid : Nat) (u : Nat) :
    (∃ t ∈ l.map (markTorn sid), t.userId = some u ∧ liveJoined t = true) ↔
      (∃ x ∈ l, x.sid ≠ sid ∧ x.userId = some u ∧ liveJoined x = true) := by
  constructor
  · rintro ⟨t, ht, htu, htl⟩
    obtain ⟨x, hx, hxt⟩ := List.mem_map.mp ht
    by_cases hxs : x.sid = sid
    · exfalso
      rw [← hxt, markTorn_of_eq _ _ hxs] at htl
      simp [liveJoined] at htl
    · rw [← hxt, markTorn_of_ne _ _ hxs] at htu htl
      exact ⟨x, hx, hxs, htu, htl⟩
  · rintro ⟨x, hx, hxs, hxu, hxl⟩
    refine ⟨markTorn sid x, List.mem_map.mpr ⟨x, hx, rfl⟩, ?_, ?_⟩
    · rw [markTorn_of_ne _ _ hxs]
      exact hxu
    · rw [markTorn_of_ne _ _ hxs]
      exact hxl

/-- A connect admissible in `st` preserves the presence invariant and the
session bookkeeping. -/
theorem conn_preserves (st : Sys) (sid : Nat) (uid : Option Nat) (lf cj : Bool)
    (hwf : wfEv st (Ev.conn sid uid lf cj) = true)
    (hI : presenceOk st) (hS : sessionsOk st.sessions) :
    presenceOk (connectStep st sid uid lf cj)
    ∧ sessionsOk (connectStep st sid uid lf cj).sessions := by
  have hwf' := hwf
  simp only [wfEv, Bool.and_eq_true] at hwf'
  obtain ⟨hfr, hun⟩ := hwf'
  have hfresh : ∀ x ∈ st.sessions, x.sid ≠ sid := by
    intro x hx
    have := List.all_eq_true.mp hfr x hx
    simpa using this
  cases uid with
  | none =>
    constructor
    · intro u
      show u ∈ st.presence ↔ _
      rw [hI u]
      exact (presence_exists_append_dead st.sessions _ rfl u).symm
    · refine sessionsOk_append st.sessions _ hS hfresh rfl ?_
      intro x hx u hu0
      cases hu0
  | some u0 =>
    have huniq : ∀ x ∈ st.sessions, x.userId = some u0 → x.torn = true := by
      intro x hx hxu
      have hx2 := List.all_eq_true.mp hun x hx
      rw [hxu] at hx2
      simpa using hx2
    have hu0 : ∀ (s0 : Session), s0.userId = some u0 →
        ∀ x ∈ st.sessions, ∀ u : Nat, s0.userId = some u → x.userId = some u → x.torn = true := by
      intro s0 hs0 x hx u hsu hxu
      have : u = u0 := by
        rw [hs0] at hsu
        exact (Option.some_inj.mp hsu).symm
      rw [this] at hxu
      exact huniq x hx hxu
    cases lf with
    | false =>
      constructor
      · intro u
        show u ∈ st.presence ↔ _
        rw [hI u]
        exact (presence_exists_append_dead st.sessions _ rfl u).symm
      · exact sessionsOk_append st.sessions _ hS hfresh rfl (hu0 _ rfl)
    | true =>
      cases cj with
      | false =>
        constructor
        · intro u
          show u ∈ st.presence ↔ _
          rw [hI u]
          exact (presence_exists_append_dead st.sessions _ rfl u).symm
        · exact sessionsOk_append st.sessions _ hS hfresh rfl (hu0 _ rfl)
      | true =>
        constructor
        · intro u
          show u ∈ add_user_presence st.presence u0 ↔ _
          rw [mem_add_user_presence]
          by_cases huu : u = u0
          · subst huu
            simp only [or_true, true_iff]
            refine ⟨⟨sid, some u, true, true, false, none,
              some (add_user_presence st.presence u)⟩, ?_, rfl, rfl⟩
            exact List.mem_append.mpr (Or.inr (List.mem_singleton.mpr rfl))
          · constructor
            · rintro (hp | he)
              · obtain ⟨x, hx, hxu, hxl⟩ := (hI u).mp hp
                exact ⟨x, List.mem_append.mpr (Or.inl hx), hxu, hxl⟩
              · exact absurd he huu
            · rintro ⟨t, ht, htu, htl⟩
              rcases List.mem_append.mp ht with h | h
              · exact Or.inl ((hI u).mpr ⟨t, h, htu, htl⟩)
              · exfalso
                have h' : t = ⟨sid, some u0, true, true, false, none,
                    some (add_user_presence st.presence u0)⟩ := by simpa using h
                rw [h'] at htu
                exact huu (Option.some_inj.mp htu).symm
        · exact sessionsOk_append st.sessions _ hS hfresh rfl (hu0 _ rfl)

/-- A teardown admissible in `st` preserves the presence invariant and the
session bookkeeping. -/
theorem disc_preserves (st : Sys) (sid : Nat)
    (hwf : wfEv st (Ev.disc sid) = true)
    (hI : presenceOk st) (hS : sessionsOk st.sessions) :
    presenceOk (disconnectStep st sid)
    ∧ sessionsOk (disconnectStep st sid).sessions := by
  obtain ⟨hSid, hUid, hGns⟩ := hS
  simp only [wfEv] at hwf
  obtain ⟨s0, hs0mem, hs0p⟩ := List.any_eq_true.mp hwf
  rw [Bool.and_eq_true] at hs0p
  obtain ⟨hs0sid, hs0torn⟩ := hs0p
  rw [beq_iff_eq] at hs0sid
  rw [Bool.not_eq_true'] at hs0torn
  have hfind : ∃ s, st.sessions.find? (fun x => x.sid == sid) = some s := by
    cases hf : st.sessions.find? (fun x => x.sid == sid)
    · exfalso
      have := List.find?_eq_none.mp hf s0 hs0mem
      simp [hs0sid] at this
    · exact ⟨_, rfl⟩
  obtain ⟨s, hf⟩ := hfind
  have hsmem : s ∈ st.sessions := List.mem_of_find?_eq_some hf
  have hssid : s.sid = sid := by
    have := List.find?_some hf
    simpa using this
  have hseq : s = s0 := hSid s hsmem s0 hs0mem (by rw [hssid, hs0sid])
  have hstorn : s.torn = false := by
    rw [hseq]
    exact hs0torn
  have hsgns : s.groupNameSet = true := hGns s hsmem
  have hmapOk : sessionsOk (st.sessions.map (markTorn sid)) := by
    refine ⟨?_, ?_, ?_⟩
    · intro t1 ht1 t2 ht2 hsid12
      obtain ⟨x1, hx1, he1⟩ := List.mem_map.mp ht1
      obtain ⟨x2, hx2, he2⟩ := List.mem_map.mp ht2
      rw [← he1, ← he2] at hsid12 ⊢
      rw [markTorn_sid, markTorn_sid] at hsid12
      rw [hSid x1 hx1 x2 hx2 hsid12]
    · intro t1 ht1 t2 ht2 u hu1 hu2 ht1t ht2t
      obtain ⟨x1, hx1, he1⟩ := List.mem_map.mp ht1
      obtain ⟨x2, hx2, he2⟩ := List.mem_map.mp ht2
      have hx1s : x1.sid ≠ sid := by
        intro hc
        rw [← he1, markTorn_of_eq _ _ hc] at ht1t
        cases ht1t
      have hx2s : x2.sid ≠ sid := by
        intro hc
        rw [← he2, markTorn_of_eq _ _ hc] at ht2t
        cases ht2t
      rw [← he1, markTorn_of_ne _ _ hx1s] at hu1 ht1t ⊢
      rw [← he2, markTorn_of_ne _ _ hx2s] at hu2 ht2t ⊢
      exact hUid x1 hx1 x2 hx2 u hu1 hu2 ht1t ht2t
    · intro t ht
      obtain ⟨x, hx, he⟩ := List.mem_map.mp ht
      rw [← he, markTorn_gns]
      exact hGns x hx
  unfold disconnectStep
  rw [hf]
  simp only [hsgns, if_true]
  refine ⟨?_, hmapOk⟩
  intro u
  show u ∈ remove_user_presence st.presence s.userId ↔ _
  rw [presence_exists_map_markTorn]
  cases hsu : s.userId with
  | none =>
    show u ∈ st.presence ↔ _
    rw [hI u]
    constructor
    · rintro ⟨x, hx, hxu, hxl⟩
      refine ⟨x, hx, ?_, hxu, hxl⟩
      intro hc
      have : x = s := hSid x hx s hsmem (by rw [hc, hssid])
      rw [this, hsu] at hxu
      cases hxu
    · rintro ⟨x, hx, -, hxu, hxl⟩
      exact ⟨x, hx, hxu, hxl⟩
  | some w =>
    rw [mem_remove_user_presence, hI u]
    by_cases huw : u = w
    · subst huw
      constructor
      · rintro ⟨-, hne⟩
        exact absurd rfl hne
      · rintro ⟨x, hx, hxs, hxu, hxl⟩
        exfalso
        have hxtorn : x.torn = false := by
          simp only [liveJoined, Bool.and_eq_true, Bool.not_eq_true'] at hxl
          exact hxl.2
        have : x = s := hUid x hx s hsmem u hxu (by rw [hsu]) hxtorn hstorn
        exact hxs (by rw [this, hssid])
    · constructor
      · rintro ⟨hp, -⟩
        obtain ⟨x, hx, hxu, hxl⟩ := hp
        refine ⟨x, hx, ?_, hxu, hxl⟩
        intro hc
        have : x = s := hSid x hx s hsmem (by rw [hc, hssid])
        rw [this, hsu] at hxu
        exact huw (Option.some_inj.mp hxu).symm
      · rintro ⟨x, hx, -, hxu, hxl⟩
        exact ⟨⟨x, hx, hxu, hxl⟩, huw⟩

/-- One admissible step preserves both invariants. -/
theorem step_preserves (st : Sys) (e : Ev) (hwf : wfEv st e = true)
    (hI : presenceOk st) (hS : sessionsOk st.sessions) :
    presenceOk (step st e) ∧ sessionsOk (step st e).sessions := by
  cases e with
  | conn sid uid lf cj => exact conn_preserves st sid uid lf cj hwf hI hS
  | disc sid => exact disc_preserves st sid hwf hI hS

/-- Any admissible trace preserves both invariants. -/
theorem foldl_preserves (es : List Ev) : ∀ st : Sys, wfFrom st es = true →
    presenceOk st → sessionsOk st.sessions →
    presenceOk (es.foldl step st) ∧ sessionsOk (es.foldl step st).sessions := by
  induction es with
  | nil =>
    intro st _ hI hS
    exact ⟨hI, hS⟩
  | cons e es ih =>
    intro st h hI hS
    simp only [wfFrom, Bool.and_eq_true] at h
    obtain ⟨h1, h2⟩ := h
    obtain ⟨hI2, hS2⟩ := step_preserves st e h1 hI hS
    exact ih (step st e) h2 hI2 hS2

/-- C6 amended: in every admissible execution — each arriving connection's
user has no other consumer that has not yet been torn down (so a user holds at
most one connection per lobby at a time), and each teardown hits an existing
not-yet-torn-down consumer exactly once — a user id is in the lobby's presence
set iff that user has a live, successfully joined Connection Session. -/
theorem presence_invariant (es : List Ev)
    (hwf : wfFrom ⟨[], [], [], []⟩ es = true) (u : Nat) :
    u ∈ (runTrace es).presence ↔
      ∃ s ∈ (runTrace es).sessions, s.userId = some u ∧ liveJoined s = true := by
  have h0I : presenceOk ⟨[], [], [], []⟩ := by
    intro v
    constructor
    · intro hv
      cases hv
    · rintro ⟨s, hs, -⟩
      cases hs
  have h0S : sessionsOk (Sys.sessions ⟨[], [], [], []⟩) := by
    refine ⟨?_, ?_, ?_⟩
    · intro s1 hs1
      cases hs1
    · intro s1 hs1
      cases hs1
    · intro s hs
      cases hs
  exact (foldl_preserves es ⟨[], [], [], []⟩ hwf h0I h0S).1 u

/-- Witness for C6's amended theorem: user 7 connects and disconnects, then
user 8 connects; 8 is present (it has a live joined session) in the final
state reached by this admissible trace. -/
theorem presence_invariant_witness :
    8 ∈ (runTrace [Ev.conn 1 (some 7) true true, Ev.disc 1,
        Ev.conn 2 (some 8) true true]).presence ↔
      ∃ s ∈ (runTrace [Ev.conn 1 (some 7) true true, Ev.disc 1,
        Ev.conn 2 (some 8) true true]).sessions,
        s.userId = some 8 ∧ liveJoined s = true :=
  presence_invariant [Ev.conn 1 (some 7) true true, Ev.disc 1,
    Ev.conn 2 (some 8) true true] (by decide) 8
